import Mathlib

/-!
Shallow embedding of the ledger core of `Simplechaindb/bigchaindb/core.py`
(class `Bigchain`), together with proofs about the queries, the voting
protocol and the domain operations.

Modelling conventions:
* The two document collections are plain Lean lists: `bigchain : List Block`
  and `backlog : List Transaction`.
* Python exceptions become an error type `CoreErr`; fallible methods return
  `Except CoreErr α`, or thread the error explicitly where the store is
  mutated before a raise could happen.
* The cryptographic primitives, the consensus plugin and the helper modules
  (`util`, `tool`, `payload`) are not part of the source tree; they are
  modelled from the spec with symbolic signatures (a signature records which
  key signed which canonical body, and verification compares both), and the
  plugin validators are abstract parameters.
-/

/-- Error kinds of the core (spec section 7 plus the raw Python exceptions
that appear in `core.py`: the chain-corruption check raises a bare
`Exception`, and a mis-parenthesised `.format` call raises `AttributeError`). -/
inductive CoreErr where
  | doubleSpend
  | chainCorruption
  | improperVote
  | genesisExists
  | invalidPayload
  | balanceNotEnough
  | invalidTransaction
  | invalidAsset
  | valueError
  | operationError
  | txDoesNotExist
  | txOwnerError
  | invalidHash
  | invalidSignature
  | attributeError
  | keyError
  | typeError
  | indexError
  | unboundLocal
  | keypairNotFound
  deriving DecidableEq, Repr

/-- An input pointer `{'txid': ..., 'cid': ...}`. -/
structure TxInput where
  txid : String
  cid : Nat
  deriving DecidableEq, Repr

mutual

/-- Ownership predicate of a condition (`condition.details`).  Modelled from
the spec: `util.condition_details_has_owner` is not in the source tree; the
details tree is either a simple-signature node carrying a public key or a
threshold node over subconditions, and ownership holds when the tree
recursively contains the owner. -/
inductive Details where
  | sig (public_key : String)
  | thresh (subconditions : DetailsList)

/-- Lists of subcondition trees (kept as a separate inductive so that the
recursive ownership predicate is structural and kernel-reducible). -/
inductive DetailsList where
  | nil
  | cons (d : Details) (ds : DetailsList)

end

mutual

/-- Modelled from the spec: the recursive ownership predicate on
`condition.details` (`util.condition_details_has_owner`, absent from the
source tree). -/
def condition_details_has_owner : Details → String → Bool
  | .sig pk, owner => pk == owner
  | .thresh subs, owner => details_list_has_owner subs owner

/-- Ownership predicate over a list of subcondition trees. -/
def details_list_has_owner : DetailsList → String → Bool
  | .nil, _ => false
  | .cons d ds, owner => condition_details_has_owner d owner || details_list_has_owner ds owner

end

/-- A transaction output condition. -/
structure Condition where
  cid : Nat
  new_owners : List String
  details : Details

/-- A transaction input fulfillment; `input = none` for CREATE/GENESIS. -/
structure Fulfillment where
  fid : Nat
  current_owners : List String
  input : Option TxInput
  fulfillment : Option String

/-- Domain payload.  The ledger treats it as opaque except for the currency /
asset fields read by the domain operations (spec section 3); fields that a
given payload does not carry are `none`. -/
structure Payload where
  category : Option String
  issue : Option String
  amount : Option Int
  account : Option Int
  previous : Option String
  trader : Option String
  message : Option String
  asset : Option String
  deriving DecidableEq, Repr

/-- The payload carrying no domain field at all. -/
def emptyPayload : Payload :=
  { category := none, issue := none, amount := none, account := none,
    previous := none, trader := none, message := none, asset := none }

/-- The inner `transaction` document. -/
structure TxBody where
  fulfillments : List Fulfillment
  conditions : List Condition
  operation : String
  timestamp : String
  payload : Payload
  uuid : String

/-- A transaction document: `{'id': hash, 'transaction': {...}}`. -/
structure Transaction where
  id : String
  transaction : TxBody

/-- The signed body of a vote. -/
structure VoteBody where
  voting_for_block : String
  previous_block : String
  is_block_valid : Bool
  invalid_reason : Option String
  timestamp : String
  deriving DecidableEq, Repr

/-- A symbolic signature: records which public key produced it and which
vote body was signed.  Modelled from the spec: Ed25519 over the canonical
form is a black-box primitive (spec section 6.4), so verification is
membership of the right key/body pair. -/
structure VoteSig where
  signer : String
  signed_body : VoteBody
  deriving DecidableEq, Repr

/-- A vote envelope `{'node_pubkey': ..., 'signature': ..., 'vote': ...}`. -/
structure Vote where
  node_pubkey : String
  signature : VoteSig
  vote : VoteBody
  deriving DecidableEq, Repr

/-- The inner `block` document. -/
structure BlockBody where
  timestamp : String
  transactions : List Transaction
  node_pubkey : String
  voters : List String

/-- A block document as stored in the `bigchain` table. -/
structure Block where
  id : String
  block : BlockBody
  signature : String
  votes : List Vote
  block_number : Option Nat

/-- Modelled from the spec: `verify_vote_signature` (consensus plugin /
`util`, absent from the source tree) checks the vote signature against the
canonical vote body under the declared `node_pubkey` (spec sections 4.4 and
6.4).  The block argument mirrors the Python call shape. -/
def verify_vote_signature (_b : Block) (v : Vote) : Bool :=
  v.signature.signer == v.node_pubkey && v.signature.signed_body == v.vote

/-- `Bigchain.BLOCK_INVALID`. -/
def BLOCK_INVALID : String := "invalid"

/-- `Bigchain.BLOCK_VALID`. -/
def BLOCK_VALID : String := "valid"

/-- `Bigchain.BLOCK_UNDECIDED`. -/
def BLOCK_UNDECIDED : String := "undecided"

/-- The element-wise product of the cast votes and the signature validity,
as computed by `block_election_status` (`map(operator.mul, vote_cast,
vote_validity)`). -/
def vote_list (b : Block) : List Nat :=
  b.votes.map (fun v =>
    (if v.vote.is_block_valid then 1 else 0) * (if verify_vote_signature b v then 1 else 0))

/-- `n_valid_votes = sum(vote_list)`. -/
def n_valid_votes (b : Block) : Nat := (vote_list b).sum

/-- `n_invalid_votes = len(vote_list) - n_valid_votes`. -/
def n_invalid_votes (b : Block) : Nat := (vote_list b).length - n_valid_votes b

/-- `Bigchain.block_election_status`: tally the votes on a block.  Python's
`math.ceil(n / 2)` and `math.floor(n / 2)` on a natural `n` are `(n + 1) / 2`
and `n / 2` in natural-number division. -/
def block_election_status (b : Block) : String :=
  if n_invalid_votes b ≥ (b.block.voters.length + 1) / 2 then BLOCK_INVALID
  else if n_valid_votes b > b.block.voters.length / 2 then BLOCK_VALID
  else BLOCK_UNDECIDED

/-- A block with one extra vote appended. -/
def withVote (b : Block) (v : Vote) : Block :=
  { b with votes := b.votes ++ [v] }

/-- Insert into a Python dict rendered as an insertion-ordered association
list: an existing key is updated in place, a fresh key is appended. -/
def dictInsert (d : List (String × String)) (k v : String) : List (String × String) :=
  if d.any (fun p => p.1 == k) then
    d.map (fun p => if p.1 == k then (p.1, v) else p)
  else d ++ [(k, v)]

/-- The dict comprehension `{block['id']: status for block in blocks}`:
fold the pairs into an insertion-ordered dict. -/
def dictOfList (l : List (String × String)) : List (String × String) :=
  l.foldl (fun d p => dictInsert d p.1 p.2) []

/-- `Bigchain.search_block_election_on_index(txid, 'transaction_id')`: the
blocks of the chain that contain a transaction with the given id (the
secondary index `transaction_id` is multi-valued over the contained
transactions; the `pluck` keeps exactly the fields the election needs, so the
model returns the blocks themselves). -/
def search_block_election_on_index (chain : List Block) (txid : String) : List Block :=
  chain.filter (fun b => b.block.transactions.any (fun t => t.id == txid))

/-- `Bigchain.get_blocks_status_containing_tx`: block id → election status
for every block containing the transaction; `none` when no block contains
it; a bare `Exception` (chain corruption) when more than one of those blocks
tallies to VALID. -/
def get_blocks_status_containing_tx (chain : List Block) (txid : String) :
    Except CoreErr (Option (List (String × String))) :=
  match search_block_election_on_index chain txid with
  | [] => .ok none
  | bs =>
    let validity := dictOfList (bs.map (fun b => (b.id, block_election_status b)))
    if ((validity.map Prod.snd).count BLOCK_VALID) > 1 then .error .chainCorruption
    else .ok (some validity)

/-- `Bigchain.get_transaction`: drop INVALID blocks from the status mapping,
prefer a VALID block over UNDECIDED ones (the Python loop leaves the last key
standing when no VALID block occurs), and extract the transaction body from
the chosen block. -/
def get_transaction (chain : List Block) (txid : String) :
    Except CoreErr (Option Transaction) := do
  let validity? ← get_blocks_status_containing_tx chain txid
  match validity? with
  | none => .ok none
  | some validity =>
    let validity := validity.filter (fun p => !(p.2 == BLOCK_INVALID))
    if validity.isEmpty then .ok none
    else
      let target_block_id :=
        match validity.find? (fun p => p.2 == BLOCK_VALID) with
        | some p => p.1
        | none => (validity.getLastD ("", "")).1
      match chain.find? (fun b => b.id == target_block_id) with
      | none => .error .indexError
      | some b =>
        match b.block.transactions.find? (fun t => t.id == txid) with
        | some t => .ok (some t)
        | none => .error .indexError

/-- The `concat_map`/`filter` in `get_spent`: all stored transactions with a
fulfillment whose `input` equals the queried pointer, in scan order. -/
def spending_transactions (chain : List Block) (inp : TxInput) : List Transaction :=
  ((chain.map (fun b => b.block.transactions)).flatten).filter
    (fun t => t.transaction.fulfillments.any (fun f => f.input == some inp))

/-- The counting loop of `get_spent`: walk the spending transactions, count
those that `get_transaction` resolves, and raise `DoubleSpend` the moment the
count exceeds one. -/
def countResolved (chain : List Block) : List Transaction → Nat → Except CoreErr Nat
  | [], acc => .ok acc
  | t :: rest, acc => do
    let r ← get_transaction chain t.id
    let acc := if r.isSome then acc + 1 else acc
    if acc > 1 then .error .doubleSpend
    else countResolved chain rest acc

/-- `Bigchain.get_spent`: `None` when no stored transaction spends the input
or when all spenders sit in invalid blocks; otherwise the first spender in
scan order; `DoubleSpend` when more than one spender resolves through
`get_transaction`. -/
def get_spent (chain : List Block) (inp : TxInput) :
    Except CoreErr (Option Transaction) :=
  match spending_transactions chain inp with
  | [] => .ok none
  | t0 :: rest => do
    let n ← countResolved chain (t0 :: rest) 0
    if n != 0 then .ok (some t0) else .ok none

/-- The single-owner branch of the ownership test in `get_owned_ids`:
`condition['condition']['details']['public_key'] == owner`; a details tree
without a `public_key` field raises `KeyError`. -/
def single_owner_match (c : Condition) (owner : String) : Except CoreErr Bool :=
  match c.details with
  | .sig pk => .ok (pk == owner)
  | .thresh _ => .error .keyError

/-- The inner condition loop of `get_owned_ids`, with the Python local
`tx_input` threaded explicitly: the variable is only (re)assigned when the
ownership test of the current condition succeeds, yet the spent check and the
append run for every condition, so a non-matching condition reuses the stale
pointer — and the very first non-matching condition of a call raises
`UnboundLocalError` (`CoreErr.unboundLocal`). -/
def ownedCondLoop (chain : List Block) (owner : String) (txid : String) :
    List Condition → Option TxInput → List TxInput →
    Except CoreErr (Option TxInput × List TxInput)
  | [], cur, acc => .ok (cur, acc)
  | c :: rest, cur, acc => do
    let cur ←
      if c.new_owners.length == 1 then do
        let m ← single_owner_match c owner
        pure (if m then some ⟨txid, c.cid⟩ else cur)
      else
        pure (if condition_details_has_owner c.details owner then some ⟨txid, c.cid⟩ else cur)
    match cur with
    | none => .error .unboundLocal
    | some ti => do
      let sp ← get_spent chain ti
      let acc := if sp.isSome then acc else acc ++ [ti]
      ownedCondLoop chain owner txid rest (some ti) acc

/-- The outer transaction loop of `get_owned_ids`: skip transactions whose
containing blocks are all INVALID, then run the condition loop; the stale
`tx_input` survives from one transaction to the next. -/
def ownedTxLoop (chain : List Block) (owner : String) :
    List Transaction → Option TxInput → List TxInput →
    Except CoreErr (Option TxInput × List TxInput)
  | [], cur, acc => .ok (cur, acc)
  | tx :: rest, cur, acc => do
    let validity? ← get_blocks_status_containing_tx chain tx.id
    match validity? with
    | none => .error .attributeError
    | some validity =>
      let sts := validity.map Prod.snd
      if !(sts.contains BLOCK_VALID) && !(sts.contains BLOCK_UNDECIDED) then
        ownedTxLoop chain owner rest cur acc
      else do
        let (cur, acc) ← ownedCondLoop chain owner tx.id tx.transaction.conditions cur acc
        ownedTxLoop chain owner rest cur acc

/-- `Bigchain.get_owned_ids`: gather the `{txid, cid}` pairs owned by
`owner`, running the (faulty) stale-variable condition loop over every
transaction whose `new_owners` mention the owner. -/
def get_owned_ids (chain : List Block) (owner : String) :
    Except CoreErr (List TxInput) := do
  let txs := ((chain.map (fun b => b.block.transactions)).flatten).filter
    (fun t => t.transaction.conditions.any (fun c => c.new_owners.contains owner))
  let (_, acc) ← ownedTxLoop chain owner txs none []
  .ok acc

/-- The vote scan of `has_previous_vote`: the first vote carried by the block
whose `node_pubkey` is this node decides the call — `True` when its signature
verifies; when it does not, the code evaluates
`ImproperVoteError(...).format(...)`, and an exception object has no `format`
attribute, so what actually escapes is `AttributeError`
(`CoreErr.attributeError`), not `ImproperVoteError`. -/
def hpvLoop (b : Block) (me : String) : List Vote → Except CoreErr Bool
  | [] => .ok false
  | v :: rest =>
    if v.node_pubkey == me then
      if verify_vote_signature b v then .ok true
      else .error .attributeError
    else hpvLoop b me rest

/-- `Bigchain.has_previous_vote`. -/
def has_previous_vote (me : String) (b : Block) : Except CoreErr Bool :=
  hpvLoop b me b.votes

/-- The single-document update applied by `write_vote` to the block stored
under the vote's `voting_for_block`: append the vote, and overwrite
`block_number` whenever the in-memory copy passed to `write_vote` lacked
one (`set_bn`). -/
def writeVoteUpdate (v : Vote) (set_bn : Bool) (bn : Nat) (b : Block) : Block :=
  if b.id == v.vote.voting_for_block then
    { b with votes := b.votes ++ [v],
             block_number := if set_bn then some bn else b.block_number }
  else b

/-- `Bigchain.write_vote`: no-op when this node already has a (verifying)
vote on the block; otherwise atomically append the vote to the stored block
document, setting `block_number` only when the block passed in carries
none.  Python returns `None` on both paths; the model returns the updated
chain. -/
def write_vote (me : String) (chain : List Block) (block : Block) (v : Vote)
    (block_number : Nat) : Except CoreErr (List Block) := do
  let hpv ← has_previous_vote me block
  if hpv then .ok chain
  else .ok (chain.map (writeVoteUpdate v block.block_number.isNone block_number))

/-- The exception classes caught by the `except` tuple of
`is_valid_transaction`: `(ValueError, OperationError, TransactionDoesNotExist,
TransactionOwnerError, DoubleSpend, InvalidHash, InvalidSignature)`.  The
bare `Exception` raised on chain corruption, `ImproperVoteError` and
`AttributeError` are not in the tuple. -/
def caughtByIsValidTransaction : CoreErr → Bool
  | .valueError => true
  | .operationError => true
  | .txDoesNotExist => true
  | .txOwnerError => true
  | .doubleSpend => true
  | .invalidHash => true
  | .invalidSignature => true
  | _ => false

/-- `Bigchain.is_valid_transaction`, parameterised by the consensus plugin's
`validate_transaction` (absent from the source tree): returns the (truthy)
transaction on success — modelled as `true` — and `False` when validation
fails with one of the errors in the `except` tuple; any other error
propagates. -/
def is_valid_transaction (validate : Transaction → Except CoreErr Transaction)
    (t : Transaction) : Except CoreErr Bool :=
  match validate t with
  | .ok _ => .ok true
  | .error e => if caughtByIsValidTransaction e then .ok false else .error e

/-- The per-transaction loop of `validate_block`: a transaction failing the
boolean check is re-validated strictly, so its caught error is raised after
all (and an uncaught error from the boolean check propagates directly). -/
def validateTxsLoop (validate : Transaction → Except CoreErr Transaction) :
    List Transaction → Except CoreErr Unit
  | [] => .ok ()
  | t :: rest => do
    let ok ← is_valid_transaction validate t
    if ok then validateTxsLoop validate rest
    else do
      let _ ← validate t
      validateTxsLoop validate rest

/-- `Bigchain.validate_block`, parameterised by the consensus plugin's
`validate_block` and `validate_transaction`: blocks this node already voted
on pass unchanged; otherwise plugin block checks run, then every contained
transaction is validated. -/
def validate_block (me : String)
    (pluginValidateBlock : Block → Except CoreErr Unit)
    (validate : Transaction → Except CoreErr Transaction)
    (b : Block) : Except CoreErr Block := do
  let hpv ← has_previous_vote me b
  if hpv then .ok b
  else do
    pluginValidateBlock b
    validateTxsLoop validate b.block.transactions
    .ok b

/-- `Bigchain.is_valid_block`: `try: validate_block ... except Exception:
return False` — every error whatsoever is swallowed into `false`. -/
def is_valid_block (me : String)
    (pluginValidateBlock : Block → Except CoreErr Unit)
    (validate : Transaction → Except CoreErr Transaction)
    (b : Block) : Bool :=
  match validate_block me pluginValidateBlock validate b with
  | .ok _ => true
  | .error _ => false

/-- A symbolic stand-in for `hash(canonical(x))` over the rendered document
(`Repr` gives a deterministic canonical text). -/
def hash_data (s : String) : String := "sha3-256:" ++ s

/-- Modelled from the spec: the consensus plugin's `create_transaction`
(section 4.3, plugin absent from the source tree) — one fulfillment (input
nullable), one condition per new-owner group, the given operation and
payload, and a content-determined id. -/
def create_transaction (current_owners new_owners : List String)
    (inp : Option TxInput) (operation : String) (payload : Payload)
    (timestamp uuid : String) : Transaction :=
  let details : Details :=
    match new_owners with
    | [pk] => .sig pk
    | _ => .thresh (new_owners.foldr (fun pk acc => .cons (.sig pk) acc) .nil)
  let body : TxBody :=
    { fulfillments := [{ fid := 0, current_owners := current_owners, input := inp,
                         fulfillment := none }],
      conditions := [{ cid := 0, new_owners := new_owners, details := details }],
      operation := operation, timestamp := timestamp, payload := payload,
      uuid := uuid }
  { id := hash_data (reprStr body.operation ++ reprStr body.timestamp ++ reprStr body.uuid
      ++ reprStr body.payload), transaction := body }

/-- Modelled from the spec: the consensus plugin's `sign_transaction`
(section 4.3) — attach fulfillment signatures without touching the id. -/
def sign_transaction (t : Transaction) (private_key : String) : Transaction :=
  let signed := t.transaction.fulfillments.map
    (fun f => { f with fulfillment := some ("sig:" ++ private_key ++ ":" ++ t.id) })
  { t with transaction := { t.transaction with fulfillments := signed } }

/-- `Bigchain.create_block`: refuse an empty transaction list
(`OperationError`), otherwise assemble, hash and sign the block; a fresh
block carries no votes and no `block_number`. -/
def create_block (me me_private : String) (nodes_except_me : List String)
    (timestamp : String) (validated_transactions : List Transaction) :
    Except CoreErr Block :=
  if validated_transactions.length == 0 then .error .operationError
  else
    let body : BlockBody :=
      { timestamp := timestamp, transactions := validated_transactions,
        node_pubkey := me, voters := nodes_except_me ++ [me] }
    .ok { id := hash_data (reprStr body.timestamp ++ reprStr body.node_pubkey),
          block := body,
          signature := "sig:" ++ me_private,
          votes := [],
          block_number := none }

/-- `Bigchain.write_block`: insert the block with the requested durability;
the model returns the new chain and records the durability level used. -/
def write_block (chain : List Block) (b : Block) (durability : String) :
    List Block × String :=
  (chain ++ [b], durability)

/-- The genesis payload written by `create_genesis_block`. -/
def genesisPayload : Payload :=
  { emptyPayload with message := some "Hello World from the BigchainDB" }

/-- `Bigchain.create_genesis_block`: refuse when the `bigchain` table is
non-empty; otherwise build one `'GENESIS'` transaction carrying the greeting
payload, wrap it in a block, stamp `block_number = 0` and write with hard
durability.  The result is the new chain, the written block and the
durability level passed to `write_block`. -/
def create_genesis_block (me me_private : String) (nodes_except_me : List String)
    (timestamp uuid : String) (chain : List Block) :
    Except CoreErr (List Block × Block × String) :=
  if chain.length != 0 then .error .genesisExists
  else do
    let transaction := create_transaction [me] [me] none "GENESIS" genesisPayload timestamp uuid
    let transaction_signed := sign_transaction transaction me_private
    let block ← create_block me me_private nodes_except_me timestamp [transaction_signed]
    let block := { block with block_number := some 0 }
    let (chain, durability) := write_block chain block "hard"
    .ok (chain, block, durability)

/-- Result of `get_last_currency`: the sentinel `'init'` or the owner's last
currency transaction. -/
inductive LastCurrency where
  | init
  | tx (t : Transaction)

/-- Modelled from the spec: `tool.get_current_account` (absent from the
source tree) — the post-transaction balance is the `account` field of the
last currency payload, `0` for the `'init'` sentinel (spec section 4.6). -/
def get_current_account : LastCurrency → Int
  | .init => 0
  | .tx t => (t.transaction.payload.account).getD 0

/-- Modelled from the spec: `payload.validate_payload_format` (absent from
the source tree) — the required domain fields must be present
(spec sections 4.6 and 7, `InvalidPayload`). -/
def validate_payload_format (pl : Payload) : Bool :=
  pl.category.isSome && pl.issue.isSome && pl.amount.isSome

/-- Modelled from the spec: `tool.get_pair_payload` (absent from the source
tree) — split a transfer payload into the sender leg (`issue = cost`) and
the receiver leg (`issue = earn`) (spec section 4.6). -/
def get_pair_payload (pl : Payload) : Payload × Payload :=
  ({ pl with issue := some "cost" }, { pl with issue := some "earn" })

/-- The sender-leg transaction built by `transfer_currency`: the sender's
last transaction id as `previous`, the receiver as `trader`, signed by the
node. -/
def mk_sender_leg (me me_private sender_pub receiver_pub : String) (pl : Payload)
    (sender_account : Int) (sender_last_id : String) (ts uuid : String) : Transaction :=
  let spl := { (get_pair_payload pl).1 with
                 account := some sender_account,
                 previous := some sender_last_id,
                 trader := some receiver_pub }
  sign_transaction (create_transaction [me] [sender_pub] none "CREATE" spl ts uuid) me_private

/-- The receiver-leg transaction built by `transfer_currency`: `previous`
chains to the receiver's last transaction or to the `'genesis'` sentinel,
the sender is recorded as `trader`. -/
def mk_receiver_leg (me me_private sender_pub receiver_pub : String) (pl : Payload)
    (receiver_last : LastCurrency) (ts uuid : String) : Transaction :=
  let rpl := { (get_pair_payload pl).2 with
                 account := some (get_current_account receiver_last),
                 previous := some (match receiver_last with
                                   | .init => "genesis"
                                   | .tx rlast => rlast.id),
                 trader := some sender_pub }
  sign_transaction (create_transaction [me] [receiver_pub] none "CREATE" rpl ts uuid) me_private

/-- `Bigchain.transfer_currency`, parameterised by the currency-chain lookup
`lastCur` (`get_last_currency`, whose chain walking lives in the missing
`tool` module) and the plugin validator: guard the payload format, require a
positive amount, require sender balance at least the amount
(`BalanceNotEnough` otherwise), then build both legs and submit them to the
backlog only when both validate; either leg failing the boolean validation
aborts with `InvalidTransaction` before anything is written.  The result
pairs the error (if any) with the final backlog, making "nothing was
submitted" explicit. -/
def transfer_currency (me me_private : String) (lastCur : String → LastCurrency)
    (validate : Transaction → Except CoreErr Transaction)
    (backlog : List Transaction)
    (sender_pub _sender_priv receiver_pub : String) (payload : Payload)
    (ts uuid : String) : Option CoreErr × List Transaction :=
  if !(validate_payload_format payload) then (some .invalidPayload, backlog)
  else
    match payload.amount with
    | none => (some .keyError, backlog)
    | some cost =>
      if cost ≤ 0 then (some .invalidPayload, backlog)
      else
        let sender_last := lastCur sender_pub
        let sender_account := get_current_account sender_last
        if sender_account ≥ cost then
          match sender_last with
          | .init => (some .typeError, backlog)
          | .tx sender_last_tx =>
            let sender_tx_signed :=
              mk_sender_leg me me_private sender_pub receiver_pub payload
                sender_account sender_last_tx.id ts uuid
            let receiver_tx_signed :=
              mk_receiver_leg me me_private sender_pub receiver_pub payload
                (lastCur receiver_pub) ts uuid
            match is_valid_transaction validate sender_tx_signed with
            | .error e => (some e, backlog)
            | .ok false => (some .invalidTransaction, backlog)
            | .ok true =>
              match is_valid_transaction validate receiver_tx_signed with
              | .error e => (some e, backlog)
              | .ok false => (some .invalidTransaction, backlog)
              | .ok true => (none, backlog ++ [sender_tx_signed, receiver_tx_signed])
        else (some .balanceNotEnough, backlog)

/-! ## Helper lemmas on the vote tally -/

/-- Each entry of the vote list is zero or one. -/
lemma voteWeight_le_one (b : Block) (v : Vote) :
    (if v.vote.is_block_valid then 1 else 0) *
      (if verify_vote_signature b v then 1 else 0) ≤ 1 := by
  split <;> split <;> simp

/-- The tally of valid votes never exceeds the number of votes cast. -/
lemma n_valid_votes_le_length (b : Block) : n_valid_votes b ≤ b.votes.length := by
  unfold n_valid_votes vote_list
  induction b.votes with
  | nil => simp
  | cons v rest ih =>
    simp only [List.map_cons, List.sum_cons, List.length_cons]
    have h1 := voteWeight_le_one b v
    omega

/-- The vote list of a block with one extra vote appended. -/
lemma vote_list_withVote (b : Block) (v : Vote) :
    vote_list (withVote b v) =
      vote_list b ++ [(if v.vote.is_block_valid then 1 else 0) *
        (if verify_vote_signature b v then 1 else 0)] := by
  unfold vote_list withVote
  rw [List.map_append]
  exact rfl

/-- When every signature on the block verifies, the tally of valid votes is
the count of `is_block_valid` votes. -/
lemma voteSum_all_valid (b : Block) :
    ∀ l : List Vote, (∀ v ∈ l, verify_vote_signature b v = true) →
      (l.map (fun v => (if v.vote.is_block_valid then 1 else 0) *
        (if verify_vote_signature b v then 1 else 0))).sum =
      l.countP (fun v => v.vote.is_block_valid) := by
  intro l
  induction l with
  | nil => intro _; rfl
  | cons v rest ih =>
    intro hl
    have hv := hl v (List.mem_cons_self v rest)
    have hrest := ih (fun w hw => hl w (List.mem_cons_of_mem v hw))
    simp only [List.map_cons, List.sum_cons, List.countP_cons, hv, if_true, mul_one, hrest]
    cases h : v.vote.is_block_valid <;> simp [h] <;> omega

/-- Valid and invalid vote counts partition the votes. -/
lemma countP_not_add (l : List Vote) :
    l.countP (fun v => v.vote.is_block_valid) +
      l.countP (fun v => !v.vote.is_block_valid) = l.length := by
  induction l with
  | nil => rfl
  | cons v rest ih =>
    cases h : v.vote.is_block_valid <;> simp [List.countP_cons, h] <;> omega

/-! ## C2 and C3: election status -/

/-- A vote body for block `bid` voting `valid`. -/
def mkVoteBody (bid : String) (valid : Bool) : VoteBody :=
  { voting_for_block := bid, previous_block := "prev", is_block_valid := valid,
    invalid_reason := none, timestamp := "ts" }

/-- A vote whose symbolic signature verifies. -/
def mkGoodVote (pk bid : String) (valid : Bool) : Vote :=
  { node_pubkey := pk,
    signature := { signer := pk, signed_body := mkVoteBody bid valid },
    vote := mkVoteBody bid valid }

/-- A vote whose symbolic signature does not verify (it signs a different
body than the one carried). -/
def mkBadVote (pk bid : String) (valid : Bool) : Vote :=
  { node_pubkey := pk,
    signature := { signer := pk, signed_body := mkVoteBody bid (!valid) },
    vote := mkVoteBody bid valid }

/-- A block body holding no transactions, for vote-tally scenarios. -/
def emptyBlockBody (voters : List String) : BlockBody :=
  { timestamp := "bt", transactions := [], node_pubkey := "creator", voters := voters }

/-- Five voters: two signed valid votes, two signed invalid votes, one vote
with a broken signature. -/
def blockC2 : Block :=
  { id := "B2", block := emptyBlockBody ["n1", "n2", "n3", "n4", "n5"], signature := "bs",
    votes := [mkGoodVote "n1" "B2" true, mkGoodVote "n2" "B2" true,
              mkGoodVote "n3" "B2" false, mkGoodVote "n4" "B2" false,
              mkBadVote "n5" "B2" true],
    block_number := none }

/-- C2 counterexample: with 5 voters, two signature-valid `valid=true` votes,
two signature-valid `valid=false` votes and one vote with an invalid
signature, `block_election_status` answers INVALID, not UNDECIDED — the
badly signed vote is counted toward `n_invalid_votes` because the code sets
`n_invalid_votes = len(votes) - n_valid_votes`. -/
theorem electionStatus_badSignature_counterexample :
    block_election_status blockC2 = BLOCK_INVALID ∧ BLOCK_INVALID ≠ BLOCK_UNDECIDED :=
  ⟨rfl, by decide⟩

/-- C2 (amended): a vote whose signature does not verify leaves
`n_valid_votes` unchanged but increments `n_invalid_votes` — it counts
against the block — and consequently the five-voter scenario with two good
valid votes, two good invalid votes and one badly signed vote tallies
INVALID. -/
theorem electionStatus_badSignature_counts_invalid :
    (∀ (b : Block) (v : Vote), verify_vote_signature b v = false →
        n_valid_votes (withVote b v) = n_valid_votes b ∧
        n_invalid_votes (withVote b v) = n_invalid_votes b + 1) ∧
    block_election_status blockC2 = BLOCK_INVALID := by
  constructor
  · intro b v hv
    have hval : n_valid_votes (withVote b v) = n_valid_votes b := by
      unfold n_valid_votes
      rw [vote_list_withVote, List.sum_append, hv]
      simp
    refine ⟨hval, ?_⟩
    have hle := n_valid_votes_le_length b
    have hlen : (vote_list (withVote b v)).length = (vote_list b).length + 1 := by
      rw [vote_list_withVote]; simp
    have hlen0 : (vote_list b).length = b.votes.length := by
      unfold vote_list; simp
    unfold n_invalid_votes
    rw [hlen, hval, hlen0]
    unfold n_invalid_votes at *
    omega
  · rfl

/-- C2 witness: the general statement applied to the concrete block and the
badly signed vote. -/
theorem electionStatus_badSignature_counts_invalid_witness :
    n_valid_votes (withVote blockC2 (mkBadVote "n6" "B2" true)) = n_valid_votes blockC2 ∧
    n_invalid_votes (withVote blockC2 (mkBadVote "n6" "B2" true)) = n_invalid_votes blockC2 + 1 :=
  electionStatus_badSignature_counts_invalid.1 blockC2 (mkBadVote "n6" "B2" true) (by decide)

/-- Four voters, an even split of signed votes. -/
def blockC3 : Block :=
  { id := "B3", block := emptyBlockBody ["n1", "n2", "n3", "n4"], signature := "bs",
    votes := [mkGoodVote "n1" "B3" true, mkGoodVote "n2" "B3" true,
              mkGoodVote "n3" "B3" false, mkGoodVote "n4" "B3" false],
    block_number := none }

/-- C3: when every vote on the block carries a valid signature, the election
answers INVALID when the invalid count reaches the ceiling of half the
voters, else VALID when the valid count exceeds the floor, else UNDECIDED;
in particular the 2-2 even split over 4 voters resolves to INVALID. -/
theorem electionStatus_formula_all_valid :
    (∀ b : Block, (∀ v ∈ b.votes, verify_vote_signature b v = true) →
        block_election_status b =
          (if b.votes.countP (fun v => !v.vote.is_block_valid) ≥
                (b.block.voters.length + 1) / 2 then BLOCK_INVALID
           else if b.votes.countP (fun v => v.vote.is_block_valid) >
                b.block.voters.length / 2 then BLOCK_VALID
           else BLOCK_UNDECIDED)) ∧
    block_election_status blockC3 = BLOCK_INVALID := by
  constructor
  · intro b hb
    have hsum : n_valid_votes b = b.votes.countP (fun v => v.vote.is_block_valid) :=
      voteSum_all_valid b b.votes hb
    have hco := countP_not_add b.votes
    have hlen0 : (vote_list b).length = b.votes.length := by
      unfold vote_list; simp
    have hinv : n_invalid_votes b = b.votes.countP (fun v => !v.vote.is_block_valid) := by
      unfold n_invalid_votes
      rw [hlen0, hsum]
      omega
    unfold block_election_status
    rw [hinv, hsum]
  · rfl

/-- C3 witness: the formula applied to the concrete 4-voter even split. -/
theorem electionStatus_formula_all_valid_witness :
    block_election_status blockC3 =
      (if blockC3.votes.countP (fun v => !v.vote.is_block_valid) ≥
            (blockC3.block.voters.length + 1) / 2 then BLOCK_INVALID
       else if blockC3.votes.countP (fun v => v.vote.is_block_valid) >
            blockC3.block.voters.length / 2 then BLOCK_VALID
       else BLOCK_UNDECIDED) :=
  electionStatus_formula_all_valid.1 blockC3 (by decide)

/-! ## C4: blocks containing a transaction -/

/-- Inserting a fresh key into a dict appends it. -/
lemma dictInsert_fresh (d : List (String × String)) (k v : String)
    (h : ∀ p ∈ d, ¬(p.1 = k)) : dictInsert d k v = d ++ [(k, v)] := by
  unfold dictInsert
  have hany : d.any (fun p => p.1 == k) = false := by
    simp only [List.any_eq_false, beq_iff_eq]
    exact h
  rw [hany]
  simp

/-- Folding pairwise-fresh keys into a dict reproduces the list. -/
lemma dictOfList_go (l : List (String × String)) :
    ∀ d : List (String × String),
      (d.map Prod.fst ++ l.map Prod.fst).Nodup →
      l.foldl (fun d p => dictInsert d p.1 p.2) d = d ++ l := by
  induction l with
  | nil => intro d _; simp
  | cons p rest ih =>
    intro d hnd
    have hk : ∀ q ∈ d, ¬(q.1 = p.1) := by
      intro q hq hqe
      rcases List.nodup_append.1 hnd with ⟨_, _, hdisj⟩
      exact hdisj (List.mem_map_of_mem Prod.fst hq) (by simp [hqe])
    rw [List.foldl_cons, dictInsert_fresh d p.1 p.2 hk]
    have hnd2 : ((d ++ [p]).map Prod.fst ++ rest.map Prod.fst).Nodup := by
      simpa [List.append_assoc] using hnd
    rw [ih (d ++ [p]) hnd2]
    simp

/-- On a pair list with distinct keys the Python dict comprehension is the
identity. -/
lemma dictOfList_nodup (l : List (String × String))
    (h : (l.map Prod.fst).Nodup) : dictOfList l = l := by
  have := dictOfList_go l [] (by simpa using h)
  simpa [dictOfList] using this

/-- Counting a status among the dict values counts the matching blocks. -/
lemma count_snd_statuses (bs : List Block) (y : String) :
    ((bs.map (fun b => (b.id, block_election_status b))).map Prod.snd).count y =
      bs.countP (fun b => block_election_status b == y) := by
  rw [List.count_eq_countP, List.countP_map, List.countP_map]
  rfl

/-- Primary-key uniqueness survives filtering. -/
lemma nodup_ids_search (chain : List Block) (txid : String)
    (h : (chain.map (fun b => b.id)).Nodup) :
    ((search_block_election_on_index chain txid).map (fun b => b.id)).Nodup := by
  unfold search_block_election_on_index
  exact ((List.filter_sublist chain).map (fun b => b.id)).nodup h

/-- C4: over a store whose block ids are distinct (the table's primary key),
`get_blocks_status_containing_tx` returns null when no block contains the
transaction, fails with the chain-corruption error when more than one
containing block tallies VALID, and otherwise returns the mapping from block
id to election status for every containing block. -/
theorem blocksStatusContainingTx_spec (chain : List Block) (txid : String)
    (hnd : (chain.map (fun b => b.id)).Nodup) :
    (search_block_election_on_index chain txid = [] →
        get_blocks_status_containing_tx chain txid = .ok none) ∧
    ((search_block_election_on_index chain txid).countP
          (fun b => block_election_status b == BLOCK_VALID) > 1 →
        get_blocks_status_containing_tx chain txid = .error .chainCorruption) ∧
    ((search_block_election_on_index chain txid).length ≠ 0 →
      (search_block_election_on_index chain txid).countP
          (fun b => block_election_status b == BLOCK_VALID) ≤ 1 →
        get_blocks_status_containing_tx chain txid =
          .ok (some ((search_block_election_on_index chain txid).map
            (fun b => (b.id, block_election_status b))))) := by
  have hdict : dictOfList ((search_block_election_on_index chain txid).map
      (fun b => (b.id, block_election_status b))) =
      (search_block_election_on_index chain txid).map
        (fun b => (b.id, block_election_status b)) := by
    apply dictOfList_nodup
    have := nodup_ids_search chain txid hnd
    simpa [List.map_map, Function.comp] using this
  refine ⟨?_, ?_, ?_⟩
  · intro he
    simp [get_blocks_status_containing_tx, he]
  · intro hcount
    rcases hs : search_block_election_on_index chain txid with _ | ⟨b0, bs⟩
    · rw [hs] at hcount; simp at hcount
    · rw [hs] at hdict hcount
      simp only [get_blocks_status_containing_tx, hs, hdict, count_snd_statuses]
      rw [if_pos hcount]
  · intro hne hcount
    rcases hs : search_block_election_on_index chain txid with _ | ⟨b0, bs⟩
    · rw [hs] at hne; simp at hne
    · rw [hs] at hdict hcount
      simp only [get_blocks_status_containing_tx, hs, hdict, count_snd_statuses]
      rw [if_neg (by omega)]

/-- A transaction skeleton with the given id and no inputs or outputs. -/
def bareTx (txid : String) : Transaction :=
  { id := txid,
    transaction := { fulfillments := [], conditions := [], operation := "CREATE",
                     timestamp := "t", payload := emptyPayload, uuid := "u" } }

/-- A block over a one-node federation carrying a good self-vote for
`valid`, so its election status is VALID when `valid` and INVALID
otherwise. -/
def votedBlock (bid : String) (txs : List Transaction) (valid : Bool) : Block :=
  { id := bid,
    block := { timestamp := "bt", transactions := txs, node_pubkey := "n1", voters := ["n1"] },
    signature := "bs",
    votes := [mkGoodVote "n1" bid valid],
    block_number := none }

/-- Two VALID blocks both containing transaction `T`. -/
def chainC4 : List Block :=
  [votedBlock "BA" [bareTx "T"] true, votedBlock "BB" [bareTx "T"] true]

/-- C4 witness: on the corrupted two-VALID-blocks store the query fails with
the chain-corruption error. -/
theorem blocksStatusContainingTx_spec_witness :
    get_blocks_status_containing_tx chainC4 "T" = .error .chainCorruption :=
  (blocksStatusContainingTx_spec chainC4 "T" (by decide)).2.1 (by decide)

/-! ## C7: has_previous_vote -/

/-- A block carrying one badly signed vote from node `N`. -/
def blockC7 : Block :=
  { id := "B7", block := emptyBlockBody ["N"], signature := "bs",
    votes := [mkBadVote "N" "B7" true], block_number := none }

/-- C7: on a block whose self-vote has an invalid signature,
`has_previous_vote` does not fail with `ImproperVoteError` as its docstring
promises: the code calls `.format` on the exception object, and what escapes
is `AttributeError`. -/
theorem hasPreviousVote_badVote_attributeError :
    has_previous_vote "N" blockC7 = .error .attributeError ∧
    (Except.error CoreErr.attributeError : Except CoreErr Bool) ≠
      .error .improperVote := by
  refine ⟨rfl, ?_⟩
  intro h
  injection h with h2
  exact absurd h2 (by decide)

/-! ## C5: the boolean validation forms -/

/-- A plugin validator that always reports chain corruption. -/
def alwaysChainCorruption : Transaction → Except CoreErr Transaction :=
  fun _ => .error .chainCorruption

/-- A plugin block validator that accepts everything. -/
def pluginOkBlock : Block → Except CoreErr Unit := fun _ => .ok ()

/-- A block with one transaction and no votes. -/
def blockC5 : Block :=
  { id := "B5",
    block := { timestamp := "bt", transactions := [bareTx "T5"], node_pubkey := "N",
               voters := ["N"] },
    signature := "bs", votes := [], block_number := none }

/-- C5 counterexample: block validation fails with the chain-corruption
error, yet `is_valid_block` returns `false` instead of letting it
propagate — its `except Exception` swallows everything. -/
theorem isValidBlock_swallows_chainCorruption :
    validate_block "N" pluginOkBlock alwaysChainCorruption blockC5 =
      .error .chainCorruption ∧
    is_valid_block "N" pluginOkBlock alwaysChainCorruption blockC5 = false :=
  ⟨rfl, rfl⟩

/-- C5 (amended): `is_valid_transaction` catches only its documented tuple
of validation errors, so a chain-corruption error propagates out of it; but
`is_valid_block` catches every exception, so any error raised during block
validation — chain corruption and improper-vote anomalies included — is
swallowed into `false` rather than propagated. -/
theorem booleanValidation_propagation :
    (∀ (validate : Transaction → Except CoreErr Transaction) (t : Transaction),
        validate t = .error .chainCorruption →
        is_valid_transaction validate t = .error .chainCorruption) ∧
    (∀ (me : String) (pvb : Block → Except CoreErr Unit)
        (validate : Transaction → Except CoreErr Transaction) (b : Block) (e : CoreErr),
        validate_block me pvb validate b = .error e →
        is_valid_block me pvb validate b = false) := by
  constructor
  · intro validate t h
    unfold is_valid_transaction
    rw [h]
    rfl
  · intro me pvb validate b e h
    unfold is_valid_block
    rw [h]

/-- C5 witness: both propagation statements applied to the concrete
always-corrupting validator. -/
theorem booleanValidation_propagation_witness :
    is_valid_transaction alwaysChainCorruption (bareTx "T5") =
      .error .chainCorruption ∧
    is_valid_block "N" pluginOkBlock alwaysChainCorruption blockC5 = false :=
  ⟨booleanValidation_propagation.1 alwaysChainCorruption (bareTx "T5") rfl,
   booleanValidation_propagation.2 "N" pluginOkBlock alwaysChainCorruption blockC5
     .chainCorruption rfl⟩

/-! ## C6: write_vote idempotence -/

/-- The signature check ignores the block argument (it verifies the vote
body against the vote's own public key). -/
lemma verify_vote_signature_irrel (b b2 : Block) (v : Vote) :
    verify_vote_signature b v = verify_vote_signature b2 v := rfl

/-- Scanning votes none of which belong to this node finds nothing. -/
lemma hpvLoop_no_self (b : Block) (me : String) :
    ∀ l : List Vote, (∀ w ∈ l, w.node_pubkey ≠ me) → hpvLoop b me l = .ok false := by
  intro l
  induction l with
  | nil => intro _; rfl
  | cons w rest ih =>
    intro h
    have hw : (w.node_pubkey == me) = false := by
      simp [h w (List.mem_cons_self w rest)]
    simp only [hpvLoop, hw, Bool.false_eq_true, if_false]
    exact ih (fun u hu => h u (List.mem_cons_of_mem w hu))

/-- When every self-vote on the list verifies and at least one self-vote is
present, the scan answers `True`. -/
lemma hpvLoop_self_valid (b : Block) (me : String) :
    ∀ l : List Vote,
      (∀ w ∈ l, w.node_pubkey = me → verify_vote_signature b w = true) →
      (∃ w ∈ l, w.node_pubkey = me) → hpvLoop b me l = .ok true := by
  intro l
  induction l with
  | nil => intro _ hex; simp at hex
  | cons w rest ih =>
    intro hall hex
    by_cases hw : w.node_pubkey = me
    · have hv := hall w (List.mem_cons_self w rest) hw
      simp only [hpvLoop, hw, beq_self_eq_true, if_true, hv]
    · have hw2 : (w.node_pubkey == me) = false := by simp [hw]
      simp only [hpvLoop, hw2, Bool.false_eq_true, if_false]
      refine ih (fun u hu => hall u (List.mem_cons_of_mem w hu)) ?_
      rcases hex with ⟨u, hu, hum⟩
      rcases List.mem_cons.1 hu with h | h
      · exact absurd (h ▸ hum) hw
      · exact ⟨u, h, hum⟩

/-- Appending this node's verifying vote after foreign votes makes the scan
answer `True`. -/
lemma hpvLoop_append_self (b : Block) (me : String) (v : Vote)
    (hm : v.node_pubkey = me) (hv : verify_vote_signature b v = true) :
    ∀ l : List Vote, (∀ w ∈ l, w.node_pubkey ≠ me) →
      hpvLoop b me (l ++ [v]) = .ok true := by
  intro l
  induction l with
  | nil =>
    intro _
    simp only [List.nil_append, hpvLoop, hm, beq_self_eq_true, if_true, hv]
  | cons w rest ih =>
    intro h
    have hw : (w.node_pubkey == me) = false := by
      simp [h w (List.mem_cons_self w rest)]
    simp only [List.cons_append, hpvLoop, hw, Bool.false_eq_true, if_false]
    exact ih (fun u hu => h u (List.mem_cons_of_mem w hu))

/-- The stored block found under an id. -/
def findBlock (chain : List Block) (bid : String) : Option Block :=
  chain.find? (fun b => b.id == bid)

/-- The vote-append update never changes a block's id. -/
lemma writeVoteUpdate_id (v : Vote) (s : Bool) (bn : Nat) (b : Block) :
    (writeVoteUpdate v s bn b).id = b.id := by
  unfold writeVoteUpdate
  split <;> rfl

/-- Looking a block up after the per-document update finds the updated
document. -/
lemma findBlock_map_writeVoteUpdate (v : Vote) (s : Bool) (bn : Nat)
    (chain : List Block) (bid : String) :
    findBlock (chain.map (writeVoteUpdate v s bn)) bid =
      (findBlock chain bid).map (writeVoteUpdate v s bn) := by
  unfold findBlock
  rw [List.find?_map]
  have : ((fun b : Block => b.id == bid) ∘ writeVoteUpdate v s bn) =
      (fun b : Block => b.id == bid) := by
    funext b
    simp [Function.comp, writeVoteUpdate_id]
  rw [this]

/-- C6: `write_vote` is idempotent per node.  First conjunct: on a block
already carrying this node's signature-valid vote (and no other self-vote,
per the at-most-one-vote invariant) the call is a no-op.  Second conjunct:
on a block with no self-vote, writing this node's verifying vote appends it
to the stored document, leaving exactly one vote from this node's public
key, sets `block_number` only when the block carried none, and a second
`write_vote` of the same vote changes nothing. -/
theorem writeVote_idempotent (me : String) (chain : List Block) (block : Block)
    (v : Vote) (bn : Nat) :
    ((∀ w ∈ block.votes, w.node_pubkey = me → verify_vote_signature block w = true) →
     (∃ w ∈ block.votes, w.node_pubkey = me) →
     write_vote me chain block v bn = .ok chain) ∧
    ((∀ w ∈ block.votes, w.node_pubkey ≠ me) →
     v.node_pubkey = me →
     verify_vote_signature block v = true →
     v.vote.voting_for_block = block.id →
     findBlock chain block.id = some block →
     write_vote me chain block v bn =
       .ok (chain.map (writeVoteUpdate v block.block_number.isNone bn)) ∧
     findBlock (chain.map (writeVoteUpdate v block.block_number.isNone bn)) block.id =
       some (writeVoteUpdate v block.block_number.isNone bn block) ∧
     ((writeVoteUpdate v block.block_number.isNone bn block).votes.filter
         (fun w => w.node_pubkey == me)).length = 1 ∧
     (writeVoteUpdate v block.block_number.isNone bn block).block_number =
       (if block.block_number.isNone then some bn else block.block_number) ∧
     write_vote me (chain.map (writeVoteUpdate v block.block_number.isNone bn))
         (writeVoteUpdate v block.block_number.isNone bn block) v bn =
       .ok (chain.map (writeVoteUpdate v block.block_number.isNone bn))) := by
  constructor
  · intro hall hex
    have hpv : has_previous_vote me block = .ok true :=
      hpvLoop_self_valid block me block.votes hall hex
    unfold write_vote
    rw [hpv]
    rfl
  · intro hno hm hv hfor hfind
    have hpv : has_previous_vote me block = .ok false :=
      hpvLoop_no_self block me block.votes hno
    have hupd : writeVoteUpdate v block.block_number.isNone bn block =
        { block with votes := block.votes ++ [v],
                     block_number := if block.block_number.isNone then some bn
                                     else block.block_number } := by
      unfold writeVoteUpdate
      rw [hfor]
      simp
    have hwrite : write_vote me chain block v bn =
        .ok (chain.map (writeVoteUpdate v block.block_number.isNone bn)) := by
      unfold write_vote
      rw [hpv]
      rfl
    refine ⟨hwrite, ?_, ?_, ?_, ?_⟩
    · rw [findBlock_map_writeVoteUpdate, hfind]
      rfl
    · rw [hupd]
      have hfilter : block.votes.filter (fun w => w.node_pubkey == me) = [] := by
        rw [List.filter_eq_nil_iff]
        intro w hw
        simp [hno w hw]
      simp only [List.filter_append, hfilter]
      simp [hm]
    · rw [hupd]
    · have hpv2 : has_previous_vote me
          (writeVoteUpdate v block.block_number.isNone bn block) = .ok true := by
        unfold has_previous_vote
        rw [hupd]
        exact hpvLoop_append_self _ me v hm
          (by rw [verify_vote_signature_irrel _ block]; exact hv) block.votes hno
      unfold write_vote
      rw [hpv2]
      rfl

/-- A vote-less block for the write-vote scenario. -/
def blockC6 : Block :=
  { id := "BW", block := emptyBlockBody ["N"], signature := "bs",
    votes := [], block_number := none }

/-- This node's verifying vote for `blockC6`. -/
def voteC6 : Vote := mkGoodVote "N" "BW" true

/-- C6 witness: writing this node's vote on the vote-less stored block
appends it, leaves exactly one self-vote, stamps the block number, and a
second identical `write_vote` is a no-op. -/
theorem writeVote_idempotent_witness :
    write_vote "N" [blockC6] blockC6 voteC6 7 =
      .ok ([blockC6].map (writeVoteUpdate voteC6 blockC6.block_number.isNone 7)) ∧
    findBlock ([blockC6].map (writeVoteUpdate voteC6 blockC6.block_number.isNone 7))
        blockC6.id =
      some (writeVoteUpdate voteC6 blockC6.block_number.isNone 7 blockC6) ∧
    ((writeVoteUpdate voteC6 blockC6.block_number.isNone 7 blockC6).votes.filter
        (fun w => w.node_pubkey == "N")).length = 1 ∧
    (writeVoteUpdate voteC6 blockC6.block_number.isNone 7 blockC6).block_number =
      (if blockC6.block_number.isNone then some 7 else blockC6.block_number) ∧
    write_vote "N" ([blockC6].map (writeVoteUpdate voteC6 blockC6.block_number.isNone 7))
        (writeVoteUpdate voteC6 blockC6.block_number.isNone 7 blockC6) voteC6 7 =
      .ok ([blockC6].map (writeVoteUpdate voteC6 blockC6.block_number.isNone 7)) :=
  (writeVote_idempotent "N" [blockC6] blockC6 voteC6 7).2
    (fun w hw => nomatch hw) rfl rfl rfl rfl

/-! ## C1: get_spent -/

/-- Bind on a successful `Except` computation runs the continuation. -/
lemma except_ok_bind {α β : Type} (a : α) (f : α → Except CoreErr β) :
    (Except.ok a : Except CoreErr α) >>= f = f a := rfl

/-- Bind on a failed `Except` computation keeps the error. -/
lemma except_error_bind {α β : Type} (e : CoreErr) (f : α → Except CoreErr β) :
    (Except.error e : Except CoreErr α) >>= f = Except.error e := rfl

/-- A spending transaction "resolves" when `get_transaction` finds it in a
VALID or UNDECIDED block. -/
def resolves (chain : List Block) (t : Transaction) : Bool :=
  match get_transaction chain t.id with
  | .ok (some _) => true
  | _ => false

/-- A transaction on which `get_transaction` does not raise. -/
def noTxError (chain : List Block) (t : Transaction) : Bool :=
  match get_transaction chain t.id with
  | .ok _ => true
  | .error _ => false

/-- Closed form of the `get_spent` counting loop: provided `get_transaction`
raises on none of the listed transactions, the loop returns the count of
resolving transactions, or `DoubleSpend` as soon as the count passes one. -/
lemma countResolved_closed (chain : List Block) :
    ∀ (l : List Transaction) (acc : Nat),
      l.all (noTxError chain) = true → acc ≤ 1 →
      countResolved chain l acc =
        (if acc + l.countP (resolves chain) > 1 then .error .doubleSpend
         else .ok (acc + l.countP (resolves chain))) := by
  intro l
  induction l with
  | nil =>
    intro acc _ hacc
    simp only [List.countP_nil, Nat.add_zero, countResolved]
    rw [if_neg (by omega)]
  | cons t rest ih =>
    intro acc hall hacc
    have h0 : noTxError chain t = true :=
      List.all_eq_true.1 hall t (List.mem_cons_self t rest)
    have hrest : rest.all (noTxError chain) = true := by
      rw [List.all_eq_true]
      intro u hu
      exact List.all_eq_true.1 hall u (List.mem_cons_of_mem t hu)
    rcases hg : get_transaction chain t.id with e | r
    · exfalso
      unfold noTxError at h0
      rw [hg] at h0
      exact Bool.noConfusion h0
    · rcases r with _ | tx
      · have hres : resolves chain t = false := by
          unfold resolves
          rw [hg]
        simp only [countResolved, hg, except_ok_bind, Option.isSome_none,
          Bool.false_eq_true, if_false]
        rw [if_neg (by omega)]
        rw [ih acc hrest hacc]
        simp [List.countP_cons, hres]
      · have hres : resolves chain t = true := by
          unfold resolves
          rw [hg]
        simp only [countResolved, hg, except_ok_bind, Option.isSome_some, if_true]
        rcases Nat.le_one_iff_eq_zero_or_eq_one.1 hacc with h1 | h1
        · subst h1
          rw [if_neg (by omega)]
          rw [ih 1 hrest (by omega)]
          simp only [List.countP_cons, hres, if_true]
          have harith : 1 + rest.countP (resolves chain) =
              0 + (rest.countP (resolves chain) + 1) := by omega
          rw [harith]
        · subst h1
          rw [if_pos (by omega)]
          rw [if_pos (by simp only [List.countP_cons, hres, if_true]; omega)]

/-- C1 (amended): `get_spent` returns null when no spending transaction
resolves through `get_transaction` (i.e. none lies in a VALID or UNDECIDED
block), returns the first stored spending transaction when exactly one
resolves, and raises `DoubleSpend` as soon as more than one spending
transaction resolves — where resolving means sitting in a VALID **or
UNDECIDED** block, not only a VALID one. -/
theorem getSpent_characterization (chain : List Block) (inp : TxInput)
    (hok : (spending_transactions chain inp).all (noTxError chain) = true) :
    get_spent chain inp =
      (if (spending_transactions chain inp).countP (resolves chain) > 1 then
         .error .doubleSpend
       else if (spending_transactions chain inp).countP (resolves chain) ≥ 1 then
         .ok (spending_transactions chain inp).head?
       else .ok none) := by
  rcases hs : spending_transactions chain inp with _ | ⟨t0, rest⟩
  · rw [hs] at hok
    simp only [get_spent, hs, List.countP_nil, List.head?_nil]
    rw [if_neg (by omega), if_neg (by omega)]
  · rw [hs] at hok
    simp only [get_spent, hs, List.head?_cons]
    rw [countResolved_closed chain (t0 :: rest) 0 hok (by omega)]
    by_cases hgt : (t0 :: rest).countP (resolves chain) > 1
    · rw [if_pos (by omega), if_pos hgt]
      rfl
    · rw [if_neg (by omega), if_neg hgt, except_ok_bind]
      by_cases hge : (t0 :: rest).countP (resolves chain) ≥ 1
      · rw [if_pos hge]
        have hne : (0 + (t0 :: rest).countP (resolves chain) != 0) = true := by
          simp only [Nat.zero_add, bne_iff_ne, ne_eq]
          omega
        rw [hne]
        rfl
      · rw [if_neg hge]
        have hne : (0 + (t0 :: rest).countP (resolves chain) != 0) = false := by
          simp only [Nat.zero_add, bne_eq_false_iff_eq]
          omega
        rw [hne]
        rfl

/-- A TRANSFER transaction spending the given input. -/
def spendTx (txid : String) (inp : TxInput) : Transaction :=
  { id := txid,
    transaction := { fulfillments := [{ fid := 0, current_owners := ["A"],
                                        input := some inp, fulfillment := some "f" }],
                     conditions := [], operation := "TRANSFER", timestamp := "t",
                     payload := emptyPayload, uuid := "u" } }

/-- A vote-less block over a three-node federation — its election status is
UNDECIDED. -/
def undecidedBlock (bid : String) (txs : List Transaction) : Block :=
  { id := bid,
    block := { timestamp := "bt", transactions := txs, node_pubkey := "n1",
               voters := ["n1", "n2", "n3"] },
    signature := "bs", votes := [], block_number := none }

/-- Two UNDECIDED blocks, each holding a distinct transaction spending the
same input — and no VALID block anywhere. -/
def chainC1 : List Block :=
  [undecidedBlock "BU1" [spendTx "S1" ⟨"T0", 0⟩],
   undecidedBlock "BU2" [spendTx "S2" ⟨"T0", 0⟩]]

/-- C1 counterexample: `get_spent` raises `DoubleSpend` although no spending
transaction resolves to a VALID block — every block of the store is
UNDECIDED.  The double-spend tally counts VALID-or-UNDECIDED resolutions,
not VALID ones only. -/
theorem getSpent_doubleSpend_on_undecided :
    get_spent chainC1 ⟨"T0", 0⟩ = .error .doubleSpend ∧
    chainC1.all (fun b => block_election_status b == BLOCK_UNDECIDED) = true :=
  ⟨rfl, rfl⟩

/-- C1 witness: the closed form applied to the concrete two-spender store. -/
theorem getSpent_characterization_witness :
    get_spent chainC1 ⟨"T0", 0⟩ =
      (if (spending_transactions chainC1 ⟨"T0", 0⟩).countP (resolves chainC1) > 1 then
         .error .doubleSpend
       else if (spending_transactions chainC1 ⟨"T0", 0⟩).countP (resolves chainC1) ≥ 1 then
         .ok (spending_transactions chainC1 ⟨"T0", 0⟩).head?
       else .ok none) :=
  getSpent_characterization chainC1 ⟨"T0", 0⟩ rfl

/-! ## C8: the genesis block -/

/-- C8 counterexample: the single transaction of the genesis block carries
operation `'GENESIS'`, not `'CREATE'` — `create_genesis_block` passes
`'GENESIS'` to `create_transaction`. -/
theorem genesisBlock_operation_counterexample :
    (create_genesis_block "me" "mp" [] "t0" "u0" []).toOption.map
        (fun o => o.2.1.block.transactions.map (fun t => t.transaction.operation)) =
      some ["GENESIS"] ∧
    "GENESIS" ≠ "CREATE" :=
  ⟨rfl, by decide⟩

/-- C8 (amended): `create_genesis_block` fails with
`GenesisBlockAlreadyExists` whenever the `bigchain` collection is non-empty;
on an empty store it writes, with hard durability, exactly one block with
`block_number = 0` containing one GENESIS transaction (not CREATE) whose
payload is the singleton greeting message. -/
theorem createGenesisBlock_spec :
    (∀ (me mp : String) (nodes : List String) (ts uuid : String) (chain : List Block),
        chain.length ≠ 0 →
        create_genesis_block me mp nodes ts uuid chain = .error .genesisExists) ∧
    (∀ (me mp : String) (nodes : List String) (ts uuid : String),
        (create_genesis_block me mp nodes ts uuid []).toOption.map (fun o => o.1) =
          (create_genesis_block me mp nodes ts uuid []).toOption.map (fun o => [o.2.1]) ∧
        (create_genesis_block me mp nodes ts uuid []).toOption.map (fun o => o.2.2) =
          some "hard" ∧
        (create_genesis_block me mp nodes ts uuid []).toOption.map
            (fun o => o.2.1.block_number) = some (some 0) ∧
        (create_genesis_block me mp nodes ts uuid []).toOption.map
            (fun o => o.2.1.block.transactions.map (fun t => t.transaction.operation)) =
          some ["GENESIS"] ∧
        (create_genesis_block me mp nodes ts uuid []).toOption.map
            (fun o => o.2.1.block.transactions.map (fun t => t.transaction.payload)) =
          some [genesisPayload]) := by
  constructor
  · intro me mp nodes ts uuid chain hne
    unfold create_genesis_block
    rw [if_pos (by simp only [bne_iff_ne, ne_eq]; omega)]
  · intro me mp nodes ts uuid
    exact ⟨rfl, rfl, rfl, rfl, rfl⟩

/-- C8 witness: the refusal applied to a store already holding a block. -/
theorem createGenesisBlock_spec_witness :
    create_genesis_block "me" "mp" [] "t0" "u0" [blockC6] = .error .genesisExists :=
  createGenesisBlock_spec.1 "me" "mp" [] "t0" "u0" [blockC6] (by decide)

/-! ## C9: transfer_currency guards -/

/-- C9: `transfer_currency` rejects a non-positive amount; fails with
`BalanceNotEnough` when the sender's balance from `last_currency` is below
the amount; and when either constructed leg fails the boolean validation it
aborts with `InvalidTransaction` — in every failing case the backlog is
returned unchanged, so neither leg was submitted. -/
theorem transferCurrency_guards
    (me mp : String) (lastCur : String → LastCurrency)
    (validate : Transaction → Except CoreErr Transaction)
    (backlog : List Transaction) (spub spriv rpub : String)
    (payload : Payload) (ts uuid : String) (amt : Int)
    (hpf : validate_payload_format payload = true)
    (hamt : payload.amount = some amt) :
    (amt ≤ 0 →
      transfer_currency me mp lastCur validate backlog spub spriv rpub payload ts uuid =
        (some .invalidPayload, backlog)) ∧
    (amt > 0 →
     get_current_account (lastCur spub) < amt →
      transfer_currency me mp lastCur validate backlog spub spriv rpub payload ts uuid =
        (some .balanceNotEnough, backlog)) ∧
    (∀ slast : Transaction,
      amt > 0 →
      lastCur spub = .tx slast →
      get_current_account (LastCurrency.tx slast) ≥ amt →
      (is_valid_transaction validate
          (mk_sender_leg me mp spub rpub payload
            (get_current_account (LastCurrency.tx slast)) slast.id ts uuid) = .ok false ∨
       (is_valid_transaction validate
          (mk_sender_leg me mp spub rpub payload
            (get_current_account (LastCurrency.tx slast)) slast.id ts uuid) = .ok true ∧
        is_valid_transaction validate
          (mk_receiver_leg me mp spub rpub payload (lastCur rpub) ts uuid) = .ok false)) →
      transfer_currency me mp lastCur validate backlog spub spriv rpub payload ts uuid =
        (some .invalidTransaction, backlog)) := by
  refine ⟨?_, ?_, ?_⟩
  · intro hle
    unfold transfer_currency
    rw [hpf]
    simp only [Bool.not_true, Bool.false_eq_true, if_false, hamt]
    rw [if_pos hle]
  · intro hpos hbal
    unfold transfer_currency
    rw [hpf]
    simp only [Bool.not_true, Bool.false_eq_true, if_false, hamt]
    rw [if_neg (by omega), if_neg (by omega)]
  · intro slast hpos hlast hbal hval
    unfold transfer_currency
    rw [hpf]
    simp only [Bool.not_true, Bool.false_eq_true, if_false, hamt]
    rw [if_neg (by omega), hlast]
    rw [if_pos hbal]
    rcases hval with h1 | ⟨h1, h2⟩
    · simp only [h1]
    · simp only [h1, h2]

/-- An owner with no currency history. -/
def lastCurInit : String → LastCurrency := fun _ => .init

/-- A plugin validator that accepts every transaction. -/
def okValidator : Transaction → Except CoreErr Transaction := fun t => .ok t

/-- A well-formed currency payload moving 5 units. -/
def payloadC9 : Payload :=
  { emptyPayload with category := some "currency", issue := some "transfer",
                      amount := some 5 }

/-- C9 witness: a sender with balance 0 transferring 5 fails with
`BalanceNotEnough` and the backlog stays empty. -/
theorem transferCurrency_guards_witness :
    transfer_currency "N" "mp" lastCurInit okValidator [] "S" "spriv" "R"
        payloadC9 "t" "u" = (some .balanceNotEnough, []) :=
  (transferCurrency_guards "N" "mp" lastCurInit okValidator [] "S" "spriv" "R"
      payloadC9 "t" "u" 5 rfl rfl).2.1 (by decide) (by decide)

/-! ## C10: get_owned_ids -/

/-- A CREATE transaction with two single-owner outputs: condition 0 owned by
`A`, condition 1 owned by `B`. -/
def txC10 : Transaction :=
  { id := "TX10",
    transaction := { fulfillments := [{ fid := 0, current_owners := ["N"],
                                        input := none, fulfillment := some "f" }],
                     conditions := [{ cid := 0, new_owners := ["A"], details := .sig "A" },
                                    { cid := 1, new_owners := ["B"], details := .sig "B" }],
                     operation := "CREATE", timestamp := "t",
                     payload := emptyPayload, uuid := "u" } }

/-- A VALID block holding the two-output transaction; nothing is spent. -/
def chainC10 : List Block := [votedBlock "B10" [txC10] true]

/-- C10: `get_owned_ids` runs the spent-check-and-append on every condition,
not only on matching ones, reusing the stale `tx_input` local.  Owner `A`
therefore receives the pair `(TX10, 0)` twice — once for the matching
condition 0 and again when the non-matching condition 1 re-appends the stale
pointer — instead of exactly once; and for owner `B`, whose first scanned
condition does not match, the loop reads `tx_input` before any assignment
and the call dies with `UnboundLocalError` instead of returning
`[(TX10, 1)]`. -/
theorem getOwnedIds_stale_txInput_evaluation :
    get_owned_ids chainC10 "A" = .ok [⟨"TX10", 0⟩, ⟨"TX10", 0⟩] ∧
    get_owned_ids chainC10 "B" = .error .unboundLocal :=
  ⟨rfl, rfl⟩
